import Mathlib

/-!
# Verification of the barista-dex oracle adapters and liquidation keeper

A shallow embedding of the price-oracle adapter layer
(`src/programs/router/src/oracle/{adapter,pyth,custom}.rs`), the keeper's
oracle record parser (`src/keeper/src/oracle/mod.rs`) and the keeper's
liquidation scheduler (`src/keeper/src/main.rs`), together with theorems
checking the repository's specification against this embedding.

Modelling conventions:
* Machine integers are `Nat`/`Int`; two's-complement wrapping is explicit
  (`wrapI32`, `wrapI64`), matching Rust release-profile semantics in which
  arithmetic overflow wraps (`i64::abs` of `i64::MIN` returns `i64::MIN`,
  signed-to-wider-unsigned `as` casts sign-extend, etc.).
* Rust's `/` on signed integers truncates toward zero, which is `Int.tdiv`.
* Account data is a `List Nat` of bytes; every read normalizes a byte with
  `% 256`, so a list of values `< 256` behaves exactly like a `&[u8]`.
* Fallible Rust functions returning `Result` become `Except`.
-/

/-! ## Little-endian byte decoding -/

/-- Little-endian value of a byte list (each entry taken mod 256,
matching `u8` storage). -/
def leNat : List Nat → Nat
  | [] => 0
  | b :: rest => b % 256 + 256 * leNat rest

/-- Read `len` bytes little-endian starting at byte offset `off`
(`u32::from_le_bytes` / `u64::from_le_bytes` on `&data[off..off+len]`). -/
def readLE (data : List Nat) (off len : Nat) : Nat :=
  leNat ((data.drop off).take len)

/-- Reinterpret an unsigned `w`-bit value as a signed one
(two's complement), as `iN::from_le_bytes` does. -/
def toSigned (w : Nat) (n : Nat) : Int :=
  if n < 2 ^ (w - 1) then (n : Int) else (n : Int) - 2 ^ w

def readU32 (data : List Nat) (off : Nat) : Nat := readLE data off 4

def readU64 (data : List Nat) (off : Nat) : Nat := readLE data off 8

def readI32 (data : List Nat) (off : Nat) : Int := toSigned 32 (readU32 data off)

def readI64 (data : List Nat) (off : Nat) : Int := toSigned 64 (readU64 data off)

/-! ## Machine-integer helpers (Rust release-profile semantics) -/

def i64Max : Int := 2 ^ 63 - 1

def i64Min : Int := -(2 ^ 63)

/-- Two's-complement wrap into the `i32` range. -/
def wrapI32 (x : Int) : Int := (x + 2 ^ 31) % 2 ^ 32 - 2 ^ 31

/-- Two's-complement wrap into the `i64` range. -/
def wrapI64 (x : Int) : Int := (x + 2 ^ 63) % 2 ^ 64 - 2 ^ 63

/-- Rust `i32::abs` in a release build: `|x|`, wrapping at `i32::MIN`. -/
def rustAbsI32 (x : Int) : Int := wrapI32 |x|

/-- Rust `i64::abs` in a release build: `|x|`, wrapping at `i64::MIN`. -/
def rustAbsI64 (x : Int) : Int := wrapI64 |x|

/-- Rust `as u32` cast of an `i32` value (reinterpret the bit pattern). -/
def castU32ofI32 (x : Int) : Nat := (x % 2 ^ 32).toNat

/-- Rust `as u128` cast of an `i64` value (sign-extend, then reinterpret). -/
def castU128ofI64 (x : Int) : Nat := (x % 2 ^ 128).toNat

/-- Rust `as i64` cast of a `u64` value. -/
def i64OfU64 (n : Nat) : Int := toSigned 64 n

/-- Clamp into `i64::MIN ≤ x ≤ i64::MAX`, used by the saturating operations. -/
def clampI64 (x : Int) : Int := max i64Min (min x i64Max)

/-- Rust `i64::saturating_mul`. -/
def saturating_mul (a b : Int) : Int := clampI64 (a * b)

/-- Rust `10_i64.saturating_pow e`: `10 ^ e`, saturating at `i64::MAX`.
Computable form: `10 ^ 18 ≤ i64::MAX < 10 ^ 19`, so the power saturates
exactly when `19 ≤ e` (see `saturating_pow10_eq_clamp`). -/
def saturating_pow10 (e : Nat) : Int := if e ≤ 18 then 10 ^ e else i64Max

/-- Rust division on `i64` (truncation toward zero). -/
def rustDiv (a b : Int) : Int := Int.tdiv a b

theorem saturating_pow10_eq_clamp (e : Nat) : saturating_pow10 e = clampI64 (10 ^ e) := by
  unfold saturating_pow10 clampI64 i64Max i64Min
  split
  · rename_i h
    have h10 : (10 : Int) ^ e ≤ 10 ^ 18 := by
      exact pow_le_pow_right₀ (by norm_num) h
    have hn : (0 : Int) ≤ 10 ^ e := by positivity
    have : (10 : Int) ^ 18 ≤ 2 ^ 63 - 1 := by norm_num
    omega
  · rename_i h
    have h19 : (10 : Int) ^ 19 ≤ 10 ^ e := by
      exact pow_le_pow_right₀ (by norm_num) (by omega)
    have : (2 : Int) ^ 63 - 1 < 10 ^ 19 := by norm_num
    omega

/-! ## Shared oracle value types (`src/programs/router/src/oracle/adapter.rs`) -/

/-- Standardized oracle price representation, all values in 1e6 scale. -/
structure OraclePrice where
  price : Int
  confidence : Int
  timestamp : Int
  expo : Int
deriving DecidableEq, Repr

/-- Oracle adapter errors. -/
inductive OracleError where
  | InvalidAccount
  | InvalidFormat
  | StalePrice
  | LowConfidence
  | PriceUnavailable
deriving DecidableEq, Repr

/-- A ledger account as the adapters see it: owner program id and raw data.
(`pinocchio::account_info::AccountInfo`; `try_borrow_data` always succeeds
in this single-borrow embedding.) -/
structure AccountInfo where
  owner : List Nat
  data : List Nat
deriving DecidableEq, Repr

/-! ## Pyth adapter (`src/programs/router/src/oracle/pyth.rs`) -/

/-- Pyth price status. -/
inductive PythPriceStatus where
  | Unknown
  | Trading
  | Halted
  | Auction
deriving DecidableEq, Repr

def PythPriceStatus.from_u32 (value : Nat) : Option PythPriceStatus :=
  if value = 0 then some .Unknown
  else if value = 1 then some .Trading
  else if value = 2 then some .Halted
  else if value = 3 then some .Auction
  else none

/-- Pyth program id bytes (the `PYTH_PROGRAM_ID` constant). -/
def pythProgramId : List Nat :=
  [0xd6, 0x8b, 0x8f, 0x6f, 0x8a, 0x8e, 0x5c, 0x2f,
   0x6e, 0x3a, 0x7d, 0x8f, 0x5a, 0x4e, 0x9c, 0x1d,
   0x2a, 0x3b, 0x4c, 0x5d, 0x6e, 0x7f, 0x8a, 0x9b,
   0xac, 0xbd, 0xce, 0xdf, 0xf0, 0x01, 0x12, 0x23]

/-- Pyth oracle adapter configuration. -/
structure PythAdapter where
  max_confidence_pct : Nat
  max_age_secs : Int
deriving DecidableEq, Repr

/-- Embeds `PythAdapter::current_timestamp`: placeholder returning 0
(no Clock sysvar wired up yet). -/
def PythAdapter.current_timestamp : Int := 0

/-- Embeds `PythAdapter::scale_price`: rescale a price at exponent `expo`
to the canonical 1e6 fixed scale. -/
def PythAdapter.scale_price (price expo : Int) : Int :=
  if 0 ≤ expo then
    rustDiv (saturating_mul price (saturating_pow10 (castU32ofI32 expo))) 1000000
  else
    let abs_expo := rustAbsI32 expo
    if 6 < abs_expo then
      rustDiv price (saturating_pow10 (castU32ofI32 (wrapI32 (abs_expo - 6))))
    else
      saturating_mul price (saturating_pow10 (castU32ofI32 (wrapI32 (6 - abs_expo))))

/-- Embeds `PythAdapter::validate_account`: checks only that the account owner is
the Pyth program. -/
def PythAdapter.validate_account (_self : PythAdapter) (acc : AccountInfo) :
    Except OracleError Unit :=
  if acc.owner ≠ pythProgramId then .error .InvalidAccount else .ok ()

/-- Embeds `PythAdapter::is_stale`: with the placeholder clock, `current_ts = 0`,
so the `current_ts == 0` guard fires and the check is skipped.  The i64
subtraction `current_ts - timestamp` wraps in a release build. -/
def PythAdapter.is_stale (_self : PythAdapter) (timestamp max_age_secs : Int) : Bool :=
  let current_ts := PythAdapter.current_timestamp
  if current_ts = 0 then false
  else decide (max_age_secs < wrapI64 (current_ts - timestamp))

/-- Embeds `PythAdapter::read_price`: validate ownership, decode the fixed-offset
fields, apply status / staleness / confidence policy, rescale to 1e6. -/
def PythAdapter.read_price (self : PythAdapter) (acc : AccountInfo) :
    Except OracleError OraclePrice :=
  match self.validate_account acc with
  | .error e => .error e
  | .ok _ =>
    if acc.data.length < 184 then .error .InvalidFormat else
    let expo := readI32 acc.data 112
    let price := readI64 acc.data 80
    let conf := readU64 acc.data 88
    let status_u32 := readU32 acc.data 96
    match PythPriceStatus.from_u32 status_u32 with
    | none => .error .InvalidFormat
    | some status =>
      let timestamp := readI64 acc.data 176
      if status ≠ .Trading then .error .PriceUnavailable else
      if self.is_stale timestamp self.max_age_secs then .error .StalePrice else
      let conf_abs : Nat := conf
      let price_abs : Nat := castU128ofI64 (rustAbsI64 price)
      if 0 < price_abs ∧ self.max_confidence_pct < conf_abs * 100 / price_abs then
        .error .LowConfidence
      else
        .ok { price := PythAdapter.scale_price price expo,
              confidence := PythAdapter.scale_price (i64OfU64 conf) expo,
              timestamp := timestamp,
              expo := expo }

/-! ## Custom adapter (`src/programs/router/src/oracle/custom.rs`) -/

/-- The custom oracle magic tag, the bytes of the ASCII string PRCLORCL. -/
def customMagic : List Nat := [80, 82, 67, 76, 79, 82, 67, 76]

/-- First 8 bytes of the data equal the magic tag (bytes normalized mod 256,
as `u8` storage guarantees). -/
def magicMatches (data : List Nat) : Prop :=
  (data.take 8).map (fun b => b % 256) = customMagic

instance (data : List Nat) : Decidable (magicMatches data) := by
  unfold magicMatches; infer_instance

/-- Custom oracle adapter configuration. -/
structure CustomAdapter where
  max_age_secs : Int
deriving DecidableEq, Repr

/-- Embeds `CustomAdapter::current_timestamp`: placeholder returning 0. -/
def CustomAdapter.current_timestamp : Int := 0

/-- Embeds `CustomAdapter::validate_account`: exact 128-byte length and magic tag. -/
def CustomAdapter.validate_account (_self : CustomAdapter) (acc : AccountInfo) :
    Except OracleError Unit :=
  if acc.data.length ≠ 128 then .error .InvalidAccount
  else if ¬ magicMatches acc.data then .error .InvalidAccount
  else .ok ()

/-- Embeds `CustomAdapter::is_stale`: no zero-clock guard here, unlike
Pyth.  The i64 subtraction `current_ts - timestamp` wraps in a release
build (it overflows at `timestamp = i64::MIN`). -/
def CustomAdapter.is_stale (_self : CustomAdapter) (timestamp max_age_secs : Int) : Bool :=
  decide (max_age_secs < wrapI64 (CustomAdapter.current_timestamp - timestamp))

/-- Embeds `CustomAdapter::read_price`: validate, re-check length and magic, read
the three fixed-offset i64 fields, staleness check, no rescaling. -/
def CustomAdapter.read_price (self : CustomAdapter) (acc : AccountInfo) :
    Except OracleError OraclePrice :=
  match self.validate_account acc with
  | .error e => .error e
  | .ok _ =>
    if acc.data.length ≠ 128 then .error .InvalidFormat else
    if ¬ magicMatches acc.data then .error .InvalidFormat else
    let price := readI64 acc.data 80
    let timestamp := readI64 acc.data 88
    let confidence := readI64 acc.data 96
    if self.is_stale timestamp self.max_age_secs then .error .StalePrice else
    .ok { price := price, confidence := confidence, timestamp := timestamp, expo := -6 }

/-! ## Keeper oracle record parser (`src/keeper/src/oracle/mod.rs`) -/

/-- Oracle account structure (128 bytes), as the keeper decodes it. -/
structure PriceOracle where
  magic : List Nat
  version : Nat
  bump : Nat
  authority : List Nat
  instrument : List Nat
  price : Int
  timestamp : Int
  confidence : Int
deriving DecidableEq, Repr

def PriceOracle.MAGIC : List Nat := customMagic

def PriceOracle.SIZE : Nat := 128

/-- Embeds `PriceOracle::from_bytes`.  The source performs an unaligned
`std::ptr::read` of the `repr(C)` struct; on the little-endian targets the
keeper runs on this equals field-wise little-endian decoding at the
documented fixed offsets (0 magic, 8 version, 9 bump, 16 authority,
48 instrument, 80 price, 88 timestamp, 96 confidence), which is how it is
embedded here. -/
def PriceOracle.from_bytes (data : List Nat) : Except String PriceOracle :=
  if data.length < PriceOracle.SIZE then .error "Invalid oracle account size"
  else if ¬ magicMatches data then .error "Invalid magic bytes"
  else .ok
    { magic := (data.take 8).map (fun b => b % 256)
      version := (readLE data 8 1)
      bump := (readLE data 9 1)
      authority := ((data.drop 16).take 32).map (fun b => b % 256)
      instrument := ((data.drop 48).take 32).map (fun b => b % 256)
      price := readI64 data 80
      timestamp := readI64 data 88
      confidence := readI64 data 96 }

/-! ## Keeper liquidation scheduler (`src/keeper/src/main.rs`)

`priority_queue.rs` and `config.rs` are not among the provided sources, so
the health-queue operations and the configuration record are modelled from
the spec; the per-tick control flow (`process_liquidations`) is translated
from `src/keeper/src/main.rs`. -/

/-- Modelled from the spec: `UserHealth` / `HealthRecord`
(`src/keeper/src/priority_queue.rs` is not under `src/`); spec section 3:
user identity, portfolio reference, signed health, equity, maintenance
margin, last-update timestamp. -/
structure UserHealth where
  user : Nat
  portfolio : Nat
  health : Int
  equity : Int
  mm : Int
  last_update : Int
deriving DecidableEq, Repr

/-- Modelled from the spec: keeper `Config` fields consumed by
`process_liquidations` (`src/keeper/src/config.rs` is not under `src/`). -/
structure Config where
  liquidation_threshold : Int
  max_liquidations_per_batch : Nat
  preliq_buffer : Int
deriving DecidableEq, Repr

/-- Modelled from the spec: `HealthQueue::get_liquidatable`
(`src/keeper/src/priority_queue.rs` is not under `src/`); spec section 4.3:
the records with `health < threshold`, ascending by health. -/
def getLiquidatable (queue : List UserHealth) (threshold : Int) : List UserHealth :=
  List.insertionSort (fun a b => a.health ≤ b.health)
    (queue.filter (fun r => r.health < threshold))

/-- Modelled from the spec: `HealthQueue::remove` deletes the (unique)
record keyed by `user`. -/
def removeUser (queue : List UserHealth) (user : Nat) : List UserHealth :=
  queue.filter (fun r => r.user ≠ user)

/-- One step of the batch loop in `process_liquidations`: classify the
entry, dispatch it through `execute_liquidation` (abstracted as `exec`,
`true` = returned `Ok`), remove the user from the queue on success, and
always record the processed entry with its classification. -/
def processEntry (cfg : Config) (exec : UserHealth → Bool)
    (st : List UserHealth × List (UserHealth × Bool)) (u : UserHealth) :
    List UserHealth × List (UserHealth × Bool) :=
  let is_preliq := decide (0 < u.health) && decide (u.health < cfg.preliq_buffer)
  if exec u then (removeUser st.1 u.user, st.2 ++ [(u, is_preliq)])
  else (st.1, st.2 ++ [(u, is_preliq)])

/-- Embeds `process_liquidations` (`src/keeper/src/main.rs`): select the first
`min(max_liquidations_per_batch, count)` entries of the liquidatable list
and process each in order.  Returns the queue after the tick and the list
of processed entries with their pre-liquidation flag. -/
def processLiquidations (cfg : Config) (exec : UserHealth → Bool)
    (queue : List UserHealth) : List UserHealth × List (UserHealth × Bool) :=
  let liquidatable := getLiquidatable queue cfg.liquidation_threshold
  if liquidatable.isEmpty then (queue, [])
  else
    let batch_size := min cfg.max_liquidations_per_batch liquidatable.length
    (liquidatable.take batch_size).foldl (processEntry cfg exec) (queue, [])

/-- Embeds `execute_liquidation` (`src/keeper/src/main.rs`), a stub: it builds
nothing, submits nothing, waits for no confirmation, and unconditionally
returns `Ok("stub_signature")`. -/
def execute_liquidation (_portfolio : Nat) (_is_preliq : Bool) : Except String String :=
  .ok "stub_signature"

/-! ## Spec-side definitions for refinement claims -/

/-- The documented rescaling formula, stated from the spec's words
(section 4.1): `expo >= 0`: saturating `price * 10^expo / 1_000_000` with
truncating division; `expo < 0` and `|expo| > 6`: `price / 10^(|expo|-6)`;
`expo < 0` and `|expo| <= 6`: saturating `price * 10^(6-|expo|)`; all
powers of ten saturate.  To be compared with `PythAdapter.scale_price`. -/
def specScale (price expo : Int) : Int :=
  if 0 ≤ expo then
    rustDiv (saturating_mul price (saturating_pow10 expo.toNat)) 1000000
  else if 6 < |expo| then
    rustDiv price (saturating_pow10 (|expo| - 6).toNat)
  else
    saturating_mul price (saturating_pow10 (6 - |expo|).toNat)

/-- Version of `scale_price` with the overflow points named by claim C10 made
explicit: `none` exactly when `expo.abs()` or one of the
`abs_expo - 6` / `6 - abs_expo` subtractions overflows `i32`
(a panic under overflow checks, a wrap in release builds). -/
def scale_price_checked (price expo : Int) : Option Int :=
  if 0 ≤ expo then
    some (rustDiv (saturating_mul price (saturating_pow10 (castU32ofI32 expo))) 1000000)
  else
    if expo = -(2 ^ 31) then none
    else
      let abs_expo := |expo|
      if 6 < abs_expo then
        if abs_expo - 6 < -(2 ^ 31) ∨ 2 ^ 31 ≤ abs_expo - 6 then none
        else some (rustDiv price (saturating_pow10 (abs_expo - 6).toNat))
      else
        if 6 - abs_expo < -(2 ^ 31) ∨ 2 ^ 31 ≤ 6 - abs_expo then none
        else some (saturating_mul price (saturating_pow10 (6 - abs_expo).toNat))

/-! ## Decoding bounds and machine-arithmetic lemmas -/

theorem leNat_lt (l : List Nat) : leNat l < 256 ^ l.length := by
  induction l with
  | nil => simp [leNat]
  | cons b t ih =>
    have hb : b % 256 < 256 := Nat.mod_lt _ (by norm_num)
    simp only [leNat, List.length_cons, pow_succ]
    omega

theorem readLE_lt (d : List Nat) (off len : Nat) : readLE d off len < 2 ^ (8 * len) := by
  unfold readLE
  have h := leNat_lt ((d.drop off).take len)
  have hlen : ((d.drop off).take len).length ≤ len := by
    simp [List.length_take]
  have hmono : (256 : Nat) ^ ((d.drop off).take len).length ≤ 256 ^ len :=
    Nat.pow_le_pow_right (by norm_num) hlen
  have h2 : (256 : Nat) ^ len = 2 ^ (8 * len) := by
    rw [show (256 : Nat) = 2 ^ 8 by norm_num, ← pow_mul]
  omega

theorem readU64_lt (d : List Nat) (off : Nat) : readU64 d off < 2 ^ 64 := by
  have := readLE_lt d off 8
  simpa [readU64] using this

theorem readU32_lt (d : List Nat) (off : Nat) : readU32 d off < 2 ^ 32 := by
  have := readLE_lt d off 4
  simpa [readU32] using this

theorem readI64_range (d : List Nat) (off : Nat) :
    -(2 ^ 63) ≤ readI64 d off ∧ readI64 d off < 2 ^ 63 := by
  have h := readU64_lt d off
  unfold readI64 toSigned
  split <;> push_cast <;> omega

theorem readI32_range (d : List Nat) (off : Nat) :
    -(2 ^ 31) ≤ readI32 d off ∧ readI32 d off < 2 ^ 31 := by
  have h := readU32_lt d off
  unfold readI32 toSigned
  split <;> push_cast <;> omega

theorem wrapI32_eq_self {x : Int} (h1 : -(2 ^ 31) ≤ x) (h2 : x < 2 ^ 31) :
    wrapI32 x = x := by
  unfold wrapI32
  rw [Int.emod_eq_of_lt (by omega) (by omega)]
  ring

theorem castU32ofI32_eq {x : Int} (h1 : 0 ≤ x) (h2 : x < 2 ^ 32) :
    castU32ofI32 x = x.toNat := by
  unfold castU32ofI32
  rw [Int.emod_eq_of_lt h1 h2]

theorem clampI64_nonneg {x : Int} (h : 0 ≤ x) : 0 ≤ clampI64 x := by
  unfold clampI64 i64Min i64Max
  omega

theorem clampI64_nonpos {x : Int} (h : x ≤ 0) : clampI64 x ≤ 0 := by
  unfold clampI64 i64Min i64Max
  omega

theorem saturating_mul_nonneg {a b : Int} (ha : 0 ≤ a) (hb : 0 ≤ b) :
    0 ≤ saturating_mul a b :=
  clampI64_nonneg (mul_nonneg ha hb)

theorem saturating_mul_nonpos {a b : Int} (ha : a ≤ 0) (hb : 0 ≤ b) :
    saturating_mul a b ≤ 0 :=
  clampI64_nonpos (mul_nonpos_iff.mpr (Or.inr ⟨ha, hb⟩))

theorem saturating_pow10_pos (e : Nat) : 0 < saturating_pow10 e := by
  unfold saturating_pow10 i64Max
  split
  · positivity
  · norm_num

theorem rustDiv_nonneg {a b : Int} (ha : 0 ≤ a) (hb : 0 ≤ b) : 0 ≤ rustDiv a b :=
  Int.tdiv_nonneg ha hb

theorem rustDiv_nonpos {a b : Int} (ha : a ≤ 0) (hb : 0 ≤ b) : rustDiv a b ≤ 0 := by
  unfold rustDiv
  have h := Int.tdiv_nonneg (by omega : (0 : Int) ≤ -a) hb
  rw [Int.neg_tdiv] at h
  omega

/-- In the `i32` range minus `i32::MIN`, the wrapped `abs`/subtract/cast
chain of `scale_price` computes the plain mathematical values, so
`scale_price` agrees with the spec's documented rescaling formula. -/
theorem scale_price_eq_specScale (p : Int) {e : Int}
    (h1 : -(2 ^ 31) < e) (h2 : e < 2 ^ 31) :
    PythAdapter.scale_price p e = specScale p e := by
  unfold PythAdapter.scale_price specScale
  by_cases he : 0 ≤ e
  · rw [if_pos he, if_pos he, castU32ofI32_eq he (by omega)]
  · rw [if_neg he, if_neg he]
    have habs : |e| = -e := abs_of_neg (by omega)
    have hra : rustAbsI32 e = -e := by
      unfold rustAbsI32
      rw [habs, wrapI32_eq_self (by omega) (by omega)]
    simp only [hra, habs]
    by_cases h6 : 6 < -e
    · rw [if_pos h6, if_pos h6,
        wrapI32_eq_self (by omega) (by omega), castU32ofI32_eq (by omega) (by omega)]
    · rw [if_neg h6, if_neg h6,
        wrapI32_eq_self (by omega) (by omega), castU32ofI32_eq (by omega) (by omega)]

/-! ## Claims C6, C7, C8, C9, C10 -/

/-- C6, counterexample: in the no-clock state (the placeholder
`current_timestamp` returns 0), both adapters report `false` — Pyth via its
explicit `current_ts == 0` early return, Custom by evaluating
`0 - timestamp > max_age_secs` — so the caller receives the same `false` a
fresh price would produce and cannot distinguish the no-clock state. -/
theorem C6_counterexample :
    PythAdapter.is_stale ⟨2, 60⟩ 100 60 = false ∧
    CustomAdapter.is_stale ⟨60⟩ 100 60 = false :=
  ⟨rfl, rfl⟩

/-- C6, amended: when the current time cannot be determined (the placeholder
clock returns 0), `PythAdapter::is_stale` returns `false` unconditionally
and `CustomAdapter::is_stale` evaluates the wrapping i64 subtraction
`0 - timestamp > max_age_secs`; the no-clock state is conflated with a
fresh price — the plain `bool` result gives the caller no way to detect
it. -/
theorem C6_no_clock_is_stale (p : PythAdapter) (c : CustomAdapter) (ts max_age : Int) :
    PythAdapter.is_stale p ts max_age = false ∧
    CustomAdapter.is_stale c ts max_age = decide (max_age < wrapI64 (0 - ts)) := by
  constructor
  · rfl
  · rfl

/-- C7: for every i64 price and every exponent in [-12, 12], `scale_price`
preserves the sign of its input: positive prices never rescale to a
negative result and negative prices never rescale to a positive one. -/
theorem C7_scale_price_sign (price expo : Int)
    (_hp1 : i64Min ≤ price) (_hp2 : price ≤ i64Max)
    (he1 : -12 ≤ expo) (he2 : expo ≤ 12) :
    (0 < price → 0 ≤ PythAdapter.scale_price price expo) ∧
    (price < 0 → PythAdapter.scale_price price expo ≤ 0) := by
  rw [scale_price_eq_specScale price (by omega) (by omega)]
  unfold specScale
  have hpow : ∀ e : Nat, 0 ≤ saturating_pow10 e := fun e => le_of_lt (saturating_pow10_pos e)
  constructor <;> intro hp
  · by_cases he : 0 ≤ expo
    · rw [if_pos he]
      exact rustDiv_nonneg (saturating_mul_nonneg (by omega) (hpow _)) (by norm_num)
    · rw [if_neg he]
      by_cases h6 : 6 < |expo|
      · rw [if_pos h6]
        exact rustDiv_nonneg (by omega) (hpow _)
      · rw [if_neg h6]
        exact saturating_mul_nonneg (by omega) (hpow _)
  · by_cases he : 0 ≤ expo
    · rw [if_pos he]
      exact rustDiv_nonpos (saturating_mul_nonpos (by omega) (hpow _)) (by norm_num)
    · rw [if_neg he]
      by_cases h6 : 6 < |expo|
      · rw [if_pos h6]
        exact rustDiv_nonpos (by omega) (hpow _)
      · rw [if_neg h6]
        exact saturating_mul_nonpos (by omega) (hpow _)

/-- C7 witness: at `price = 5`, `expo = -8` the hypotheses hold and the
rescaled price is nonnegative. -/
theorem C7_witness : 0 < (5 : Int) ∧ 0 ≤ PythAdapter.scale_price 5 (-8) :=
  ⟨by decide,
   (C7_scale_price_sign 5 (-8) (by decide) (by decide) (by decide) (by decide)).1 (by decide)⟩

/-- C8: every 128-byte Custom oracle account with the PRCLORCL magic and a
non-stale timestamp reads back its three raw little-endian i64 fields
(price at offset 80, confidence at 96, timestamp at 88) unchanged, with
`expo = -6`: no rescaling and no confidence-ratio policy. -/
theorem C8_custom_read_price (self : CustomAdapter) (acc : AccountInfo)
    (hlen : acc.data.length = 128)
    (hmagic : magicMatches acc.data)
    (hfresh : CustomAdapter.is_stale self (readI64 acc.data 88) self.max_age_secs = false) :
    CustomAdapter.read_price self acc =
      .ok { price := readI64 acc.data 80, confidence := readI64 acc.data 96,
            timestamp := readI64 acc.data 88, expo := -6 } := by
  unfold CustomAdapter.read_price CustomAdapter.validate_account
  simp [hlen, hmagic, hfresh]

set_option maxRecDepth 10000 in
/-- C8 witness: the spec's end-to-end scenario 1 — magic PRCLORCL,
price = 50_000_000_000, confidence = 50_000_000, timestamp = 0 (fresh under
the placeholder clock) — reads back exactly those values with expo = -6. -/
theorem C8_witness :
    CustomAdapter.read_price ⟨60⟩
      ⟨[], customMagic ++ List.replicate 72 0
            ++ [0, 116, 59, 164, 11, 0, 0, 0] ++ List.replicate 8 0
            ++ [128, 240, 250, 2, 0, 0, 0, 0] ++ List.replicate 24 0⟩ =
      .ok { price := 50000000000, confidence := 50000000, timestamp := 0, expo := -6 } :=
  (C8_custom_read_price ⟨60⟩ _ (by decide) (by decide) (by decide)).trans rfl

/-- Reading a window that lies inside the first `N` bytes ignores any bytes
past `N`. -/
theorem take_window (data : List Nat) (off n N : Nat) (h : off + n ≤ N) :
    ((data.take N).drop off).take n = (data.drop off).take n := by
  rw [List.drop_take, List.take_take]
  congr 1
  omega

/-- C9: `PriceOracle::from_bytes` succeeds exactly on buffers of length at
least 128 whose first 8 bytes are the PRCLORCL magic — in particular any
longer buffer is accepted — and its result only depends on (is decoded
from) the first 128 bytes. -/
theorem C9_from_bytes (data : List Nat) :
    ((PriceOracle.from_bytes data).isOk = true ↔
      (128 ≤ data.length ∧ magicMatches data)) ∧
    PriceOracle.from_bytes data = PriceOracle.from_bytes (data.take 128) := by
  have hmagic : magicMatches (data.take 128) ↔ magicMatches data := by
    unfold magicMatches
    rw [List.take_take]
    norm_num
  constructor
  · unfold PriceOracle.from_bytes PriceOracle.SIZE
    by_cases hl : data.length < 128
    · rw [if_pos hl]
      simp only [Except.isOk]
      constructor
      · intro h
        exact absurd h (by decide)
      · intro h
        omega
    · rw [if_neg hl]
      by_cases hm : magicMatches data
      · rw [if_neg (by simpa using hm)]
        simp only [Except.isOk]
        exact ⟨fun _ => ⟨by omega, hm⟩, fun _ => rfl⟩
      · rw [if_pos (by simpa using hm)]
        simp only [Except.isOk]
        constructor
        · intro h
          exact absurd h (by decide)
        · intro h
          exact absurd h.2 hm
  · unfold PriceOracle.from_bytes PriceOracle.SIZE
    have hlen : (data.take 128).length < 128 ↔ data.length < 128 := by
      rw [List.length_take]
      omega
    by_cases hl : data.length < 128
    · rw [if_pos hl, if_pos (hlen.mpr hl)]
    · rw [if_neg hl, if_neg (fun h => hl (hlen.mp h))]
      by_cases hm : magicMatches data
      · rw [if_neg (by simpa using hm), if_neg (by simp only [hmagic]; simpa using hm)]
        have h8 : List.take 8 (List.take 128 data) = List.take 8 data := by
          rw [List.take_take]
          norm_num
        unfold readI64 readU64 readLE
        rw [h8, take_window data 8 1 128 (by omega), take_window data 9 1 128 (by omega),
          take_window data 16 32 128 (by omega), take_window data 48 32 128 (by omega),
          take_window data 80 8 128 (by omega), take_window data 88 8 128 (by omega),
          take_window data 96 8 128 (by omega)]
      · rw [if_pos (by simpa using hm), if_pos (by simp only [hmagic]; simpa using hm)]

/-- C10, counterexample: at `expo = i32::MIN` the claim fails —
`expo.abs()` overflows `i32` (wrapping in release builds, panicking under
overflow checks), so `scale_price` is not total over all of `i32`. -/
theorem C10_counterexample : scale_price_checked 1 (-(2 ^ 31)) = none := rfl

/-- C10, amended: `scale_price` performs its exponent arithmetic
(`expo.abs()`, the `abs_expo - 6` / `6 - abs_expo` subtractions and their
`u32` casts) without overflow for every i64 price and every i32 exponent
except `i32::MIN`, where `expo.abs()` overflows. -/
theorem C10_scale_price_total (price : Int) {expo : Int}
    (h1 : -(2 ^ 31) < expo) (h2 : expo < 2 ^ 31) :
    scale_price_checked price expo = some (PythAdapter.scale_price price expo) := by
  unfold scale_price_checked PythAdapter.scale_price
  by_cases he : 0 ≤ expo
  · rw [if_pos he, if_pos he]
  · rw [if_neg he, if_neg he, if_neg (by omega : ¬ expo = -(2 ^ 31))]
    have habs : |expo| = -expo := abs_of_neg (by omega)
    have hra : rustAbsI32 expo = -expo := by
      unfold rustAbsI32
      rw [habs, wrapI32_eq_self (by omega) (by omega)]
    simp only [hra, habs]
    by_cases h6 : 6 < -expo
    · rw [if_pos h6, if_pos h6, if_neg (by omega),
        wrapI32_eq_self (by omega) (by omega), castU32ofI32_eq (by omega) (by omega)]
    · rw [if_neg h6, if_neg h6, if_neg (by omega),
        wrapI32_eq_self (by omega) (by omega), castU32ofI32_eq (by omega) (by omega)]

/-- C10 witness: at `expo = -8` (the typical Pyth BTC/USD exponent) the
exponent arithmetic does not overflow. -/
theorem C10_witness :
    scale_price_checked 5 (-8) = some (PythAdapter.scale_price 5 (-8)) :=
  C10_scale_price_total 5 (by decide) (by decide)

/-! ## Reducing `PythAdapter.read_price` past its structural checks -/

/-- For an `i64` value other than `i64::MIN`, the `price.abs() as u128`
chain computes the mathematical absolute value. -/
theorem castU128_rustAbs_of_ne_min {p : Int}
    (h1 : -(2 ^ 63) ≤ p) (h2 : p < 2 ^ 63) (hne : p ≠ -(2 ^ 63)) :
    castU128ofI64 (rustAbsI64 p) = p.natAbs := by
  unfold castU128ofI64 rustAbsI64 wrapI64
  rw [Int.abs_eq_natAbs]
  omega

/-- At `p = i64::MIN`, `p.abs()` wraps to `i64::MIN` and the `u128` cast
sign-extends, yielding `2^128 - 2^63` rather than `2^63`. -/
theorem castU128_rustAbs_min :
    castU128ofI64 (rustAbsI64 (-(2 ^ 63))) = 2 ^ 128 - 2 ^ 63 := by
  unfold castU128ofI64 rustAbsI64 wrapI64
  rw [Int.abs_eq_natAbs]
  omega

/-- Once ownership and the minimum length are established, `read_price` is
the status/staleness/confidence policy chain over the decoded fields. -/
theorem pyth_read_price_eq (self : PythAdapter) (acc : AccountInfo)
    (howner : acc.owner = pythProgramId) (hlen : 184 ≤ acc.data.length) :
    PythAdapter.read_price self acc =
      (match PythPriceStatus.from_u32 (readU32 acc.data 96) with
       | none => .error .InvalidFormat
       | some status =>
         if status ≠ .Trading then .error .PriceUnavailable
         else if self.is_stale (readI64 acc.data 176) self.max_age_secs then
           .error .StalePrice
         else if 0 < castU128ofI64 (rustAbsI64 (readI64 acc.data 80)) ∧
             self.max_confidence_pct <
               readU64 acc.data 88 * 100 / castU128ofI64 (rustAbsI64 (readI64 acc.data 80)) then
           .error .LowConfidence
         else
           .ok { price := PythAdapter.scale_price (readI64 acc.data 80) (readI32 acc.data 112),
                 confidence :=
                   PythAdapter.scale_price (i64OfU64 (readU64 acc.data 88)) (readI32 acc.data 112),
                 timestamp := readI64 acc.data 176,
                 expo := readI32 acc.data 112 }) := by
  unfold PythAdapter.read_price PythAdapter.validate_account
  rw [if_neg (by simp [howner])]
  dsimp only
  rw [if_neg (by omega : ¬ acc.data.length < 184)]

/-! ## Claim C1 -/

/-- A Pyth-style account satisfying every hypothesis of claim C1, with
`expo = i32::MIN` (bytes `[0,0,0,128]` at offset 112), `price = 1`,
`conf = 0`, `status = Trading`, `timestamp = 0`. -/
def accC1 : AccountInfo :=
  ⟨pythProgramId,
    List.replicate 80 0 ++ [1, 0, 0, 0, 0, 0, 0, 0]
      ++ List.replicate 8 0
      ++ [1, 0, 0, 0]
      ++ List.replicate 12 0
      ++ [0, 0, 0, 128]
      ++ List.replicate 60 0
      ++ List.replicate 8 0⟩

set_option maxRecDepth 10000 in
/-- C1, counterexample: at `expo = i32::MIN` every hypothesis of C1 holds
(Trading, fresh, confidence ratio 0), yet the returned price is
`i64::MAX` — in a release build `expo.abs()` wraps to `i32::MIN`, the code
takes the scale-up branch and saturates — while the documented formula
(`|expo| > 6` ⇒ `price / 10^(|expo|-6)`) yields 0. -/
theorem C1_counterexample :
    PythAdapter.read_price ⟨2, 60⟩ accC1 = .ok ⟨2 ^ 63 - 1, 0, 0, -(2 ^ 31)⟩ ∧
    specScale (readI64 accC1.data 80) (readI32 accC1.data 112) = 0 :=
  ⟨rfl, rfl⟩

/-- C1, amended: for every Pyth-style oracle account accepted by
`validate_account`, of length at least 184, with Trading status, a
non-stale timestamp, an acceptable confidence ratio
`confidence * 100 / |price|` (or `|price| = 0`), **and whose exponent is
not `i32::MIN`** (where `expo.abs()` overflows), `read_price` returns `Ok`
with the price and the confidence rescaled by the documented formula and
the raw timestamp and exponent unchanged. -/
theorem C1_pyth_read_price (self : PythAdapter) (acc : AccountInfo)
    (howner : acc.owner = pythProgramId)
    (hlen : 184 ≤ acc.data.length)
    (hstatus : readU32 acc.data 96 = 1)
    (hfresh : PythAdapter.is_stale self (readI64 acc.data 176) self.max_age_secs = false)
    (hconf : (readI64 acc.data 80).natAbs = 0 ∨
      readU64 acc.data 88 * 100 / (readI64 acc.data 80).natAbs ≤ self.max_confidence_pct)
    (hexpo : readI32 acc.data 112 ≠ -(2 ^ 31)) :
    PythAdapter.read_price self acc =
      .ok { price := specScale (readI64 acc.data 80) (readI32 acc.data 112),
            confidence := specScale (i64OfU64 (readU64 acc.data 88)) (readI32 acc.data 112),
            timestamp := readI64 acc.data 176,
            expo := readI32 acc.data 112 } := by
  have hexpoR := readI32_range acc.data 112
  have hpR := readI64_range acc.data 80
  have hcR := readU64_lt acc.data 88
  have hc : ¬(0 < castU128ofI64 (rustAbsI64 (readI64 acc.data 80)) ∧
      self.max_confidence_pct <
        readU64 acc.data 88 * 100 / castU128ofI64 (rustAbsI64 (readI64 acc.data 80))) := by
    by_cases hmin : readI64 acc.data 80 = -(2 ^ 63)
    · rw [hmin, castU128_rustAbs_min]
      intro h
      have hlt : readU64 acc.data 88 * 100 / (2 ^ 128 - 2 ^ 63) = 0 :=
        Nat.div_eq_of_lt (by omega)
      omega
    · rw [castU128_rustAbs_of_ne_min hpR.1 hpR.2 hmin]
      rcases hconf with h0 | hle
      · intro h
        omega
      · intro h
        omega
  rw [pyth_read_price_eq self acc howner hlen, hstatus,
    show PythPriceStatus.from_u32 1 = some PythPriceStatus.Trading from rfl]
  dsimp only
  rw [if_neg (by simp), hfresh, if_neg (by simp), if_neg hc,
    scale_price_eq_specScale _ (by omega) hexpoR.2,
    scale_price_eq_specScale _ (by omega) hexpoR.2]

/-- A well-formed Pyth-style account: the spec's end-to-end scenario 2,
`price = 5_000_000_000`, `expo = -8`, `confidence = 10_000_000`,
`status = Trading`, `timestamp = 0`. -/
def accW1 : AccountInfo :=
  ⟨pythProgramId,
    List.replicate 80 0 ++ [0, 242, 5, 42, 1, 0, 0, 0]
      ++ [128, 150, 152, 0, 0, 0, 0, 0]
      ++ [1, 0, 0, 0]
      ++ List.replicate 12 0
      ++ [248, 255, 255, 255]
      ++ List.replicate 60 0
      ++ List.replicate 8 0⟩

set_option maxRecDepth 10000 in
/-- C1 witness: on the scenario-2 account all hypotheses hold and the
formula rescales `5_000_000_000 : 10^-8` to `50_000_000 : 10^-6`. -/
theorem C1_witness :
    PythAdapter.read_price ⟨2, 60⟩ accW1 = .ok ⟨50000000, 100000, 0, -8⟩ :=
  (C1_pyth_read_price ⟨2, 60⟩ accW1 (by decide) (by decide) (by decide) (by decide)
    (by decide) (by decide)).trans rfl

/-! ## Claim C2 -/

/-- A 184-byte Pyth-owned account whose first bytes (the documented Pyth
magic position) are all zero — a wrong magic tag — but whose decodable
fields are valid: `price = 100`, `status = Trading`, everything else 0. -/
def accC2 : AccountInfo :=
  ⟨pythProgramId,
    List.replicate 80 0 ++ [100, 0, 0, 0, 0, 0, 0, 0] ++ List.replicate 8 0
      ++ [1, 0, 0, 0] ++ List.replicate 84 0⟩

set_option maxRecDepth 10000 in
/-- C2, counterexample: the Pyth adapter never checks the magic tag and
`validate_account` never checks the length — an account with an all-zero
magic parses to a price, and an empty account passes `validate_account`. -/
theorem C2_counterexample :
    accC2.data.take 8 = [0, 0, 0, 0, 0, 0, 0, 0] ∧
    PythAdapter.validate_account ⟨2, 60⟩ accC2 = .ok () ∧
    PythAdapter.read_price ⟨2, 60⟩ accC2 = .ok ⟨0, 0, 0, 0⟩ ∧
    PythAdapter.validate_account ⟨2, 60⟩ ⟨pythProgramId, []⟩ = .ok () :=
  ⟨rfl, rfl, rfl, rfl⟩

/-- C2, amended: for the CustomAdapter, a wrong magic tag or a wrong
length makes both `validate_account` and `read_price` return
`InvalidAccount` before any field is interpreted; the PythAdapter's
`validate_account` checks only program ownership (no length, no magic),
and its `read_price` returns `InvalidFormat` whenever the data is shorter
than 184 bytes — the Pyth magic field is never checked. -/
theorem C2_structural_checks (c : CustomAdapter) (p : PythAdapter) (acc : AccountInfo) :
    ((acc.data.length ≠ 128 ∨ ¬ magicMatches acc.data) →
      CustomAdapter.validate_account c acc = .error .InvalidAccount ∧
      CustomAdapter.read_price c acc = .error .InvalidAccount) ∧
    (acc.owner = pythProgramId → acc.data.length < 184 →
      PythAdapter.read_price p acc = .error .InvalidFormat) := by
  constructor
  · intro hbad
    have hval : CustomAdapter.validate_account c acc = .error .InvalidAccount := by
      unfold CustomAdapter.validate_account
      rcases hbad with h | h
      · rw [if_pos h]
      · by_cases hl : acc.data.length = 128
        · rw [if_neg (by simp [hl]), if_pos h]
        · rw [if_pos hl]
    refine ⟨hval, ?_⟩
    unfold CustomAdapter.read_price
    rw [hval]
  · intro howner hlen
    unfold PythAdapter.read_price PythAdapter.validate_account
    rw [if_neg (by simp [howner])]
    dsimp only
    rw [if_pos hlen]

/-- C2 witness: an empty Pyth-owned account — wrong length and absent
magic — is rejected by both Custom entry points and by Pyth's
`read_price`. -/
theorem C2_witness :
    CustomAdapter.validate_account ⟨60⟩ ⟨pythProgramId, []⟩ = .error .InvalidAccount ∧
    CustomAdapter.read_price ⟨60⟩ ⟨pythProgramId, []⟩ = .error .InvalidAccount ∧
    PythAdapter.read_price ⟨2, 60⟩ ⟨pythProgramId, []⟩ = .error .InvalidFormat := by
  have h := C2_structural_checks ⟨60⟩ ⟨2, 60⟩ ⟨pythProgramId, []⟩
  exact ⟨(h.1 (by decide)).1, (h.1 (by decide)).2, h.2 (by decide) (by decide)⟩

/-! ## Claim C3 -/

/-- A 184-byte Pyth-owned Trading account with `price = i64::MIN` and
`confidence = 2^63` (`expo = -6`, `timestamp = 0`): the claim's confidence
ratio is `2^63 * 100 / 2^63 = 100`, far above the 2 percent threshold. -/
def accC3 : AccountInfo :=
  ⟨pythProgramId,
    List.replicate 80 0 ++ [0, 0, 0, 0, 0, 0, 0, 128] ++ [0, 0, 0, 0, 0, 0, 0, 128]
      ++ [1, 0, 0, 0] ++ List.replicate 12 0 ++ [250, 255, 255, 255]
      ++ List.replicate 60 0 ++ List.replicate 8 0⟩

set_option maxRecDepth 10000 in
/-- C3, counterexample: at `price = i64::MIN` the confidence ratio of the
claim is 100 (> 2), so the claim demands `Err(LowConfidence)`; but the
code's `price.abs() as u128` wraps and sign-extends to `2^128 - 2^63`,
the computed ratio is 0, and `read_price` returns `Ok`. -/
theorem C3_counterexample :
    readU64 accC3.data 88 * 100 / (readI64 accC3.data 80).natAbs = 100 ∧
    PythAdapter.read_price ⟨2, 60⟩ accC3 = .ok ⟨-(2 ^ 63), -(2 ^ 63), 0, -6⟩ :=
  ⟨rfl, rfl⟩

/-- C3, amended: for every structurally decodable Pyth-style account
**whose price is not `i64::MIN`** (where `price.abs()` wraps before the
`u128` cast), `read_price` applies the provider policy in the documented
order with the documented error variants: `PriceUnavailable` when status
is not Trading; otherwise `StalePrice` when `is_stale` holds; otherwise,
when `|price| > 0`, `LowConfidence` exactly when
`confidence * 100 / |price|` (computed in unsigned 128-bit arithmetic,
which cannot overflow) exceeds `max_confidence_pct`; when `|price| = 0`
the confidence check is skipped. -/
theorem C3_policy_order (self : PythAdapter) (acc : AccountInfo)
    (howner : acc.owner = pythProgramId)
    (hlen : 184 ≤ acc.data.length)
    (hdec : readU32 acc.data 96 ≤ 3)
    (hmin : readI64 acc.data 80 ≠ -(2 ^ 63)) :
    (readU32 acc.data 96 ≠ 1 →
      PythAdapter.read_price self acc = .error .PriceUnavailable) ∧
    (readU32 acc.data 96 = 1 →
      PythAdapter.is_stale self (readI64 acc.data 176) self.max_age_secs = true →
      PythAdapter.read_price self acc = .error .StalePrice) ∧
    (readU32 acc.data 96 = 1 →
      PythAdapter.is_stale self (readI64 acc.data 176) self.max_age_secs = false →
      0 < (readI64 acc.data 80).natAbs →
      self.max_confidence_pct < readU64 acc.data 88 * 100 / (readI64 acc.data 80).natAbs →
      PythAdapter.read_price self acc = .error .LowConfidence) ∧
    (readU32 acc.data 96 = 1 →
      PythAdapter.is_stale self (readI64 acc.data 176) self.max_age_secs = false →
      ((readI64 acc.data 80).natAbs = 0 ∨
        readU64 acc.data 88 * 100 / (readI64 acc.data 80).natAbs ≤ self.max_confidence_pct) →
      PythAdapter.read_price self acc =
        .ok { price := PythAdapter.scale_price (readI64 acc.data 80) (readI32 acc.data 112),
              confidence := PythAdapter.scale_price (i64OfU64 (readU64 acc.data 88))
                              (readI32 acc.data 112),
              timestamp := readI64 acc.data 176,
              expo := readI32 acc.data 112 }) := by
  have hpR := readI64_range acc.data 80
  have habs := castU128_rustAbs_of_ne_min hpR.1 hpR.2 hmin
  rw [pyth_read_price_eq self acc howner hlen]
  refine ⟨?_, ?_, ?_, ?_⟩
  · intro hne
    have h023 : readU32 acc.data 96 = 0 ∨ readU32 acc.data 96 = 2 ∨ readU32 acc.data 96 = 3 := by
      omega
    rcases h023 with h | h | h
    · rw [h, show PythPriceStatus.from_u32 0 = some PythPriceStatus.Unknown from rfl]
      dsimp only
      rw [if_pos (by decide : PythPriceStatus.Unknown ≠ PythPriceStatus.Trading)]
    · rw [h, show PythPriceStatus.from_u32 2 = some PythPriceStatus.Halted from rfl]
      dsimp only
      rw [if_pos (by decide : PythPriceStatus.Halted ≠ PythPriceStatus.Trading)]
    · rw [h, show PythPriceStatus.from_u32 3 = some PythPriceStatus.Auction from rfl]
      dsimp only
      rw [if_pos (by decide : PythPriceStatus.Auction ≠ PythPriceStatus.Trading)]
  · intro h1 hstale
    rw [h1, show PythPriceStatus.from_u32 1 = some PythPriceStatus.Trading from rfl]
    dsimp only
    rw [if_neg (by simp), hstale, if_pos rfl]
  · intro h1 hfresh hpos hgt
    rw [h1, show PythPriceStatus.from_u32 1 = some PythPriceStatus.Trading from rfl]
    dsimp only
    rw [if_neg (by simp), hfresh, if_neg (by simp), habs, if_pos ⟨hpos, hgt⟩]
  · intro h1 hfresh hok
    rw [h1, show PythPriceStatus.from_u32 1 = some PythPriceStatus.Trading from rfl]
    dsimp only
    rw [if_neg (by simp), hfresh, if_neg (by simp), habs,
      if_neg (by rcases hok with h0 | hle <;> omega)]

/-- A 184-byte Pyth-owned account with `status = Halted` and all other
fields zero. -/
def accW3 : AccountInfo :=
  ⟨pythProgramId, List.replicate 96 0 ++ [2, 0, 0, 0] ++ List.replicate 84 0⟩

set_option maxRecDepth 10000 in
/-- C3 witness: a Halted feed is rejected with `PriceUnavailable`. -/
theorem C3_witness :
    PythAdapter.read_price ⟨2, 60⟩ accW3 = .error .PriceUnavailable :=
  (C3_policy_order ⟨2, 60⟩ accW3 (by decide) (by decide) (by decide) (by decide)).1 (by decide)

/-! ## Claims C4 and C5 -/

/-- The batch fold of `process_liquidations` records every batch entry, in
order, paired with its pre-liquidation classification, regardless of
dispatch success. -/
theorem processEntry_foldl_snd (cfg : Config) (exec : UserHealth → Bool)
    (batch : List UserHealth) (q : List UserHealth) (acc : List (UserHealth × Bool)) :
    (batch.foldl (processEntry cfg exec) (q, acc)).2 =
      acc ++ batch.map
        (fun u => (u, decide (0 < u.health) && decide (u.health < cfg.preliq_buffer))) := by
  induction batch generalizing q acc with
  | nil => simp
  | cons u t ih =>
    rw [List.foldl_cons,
      show processEntry cfg exec (q, acc) u =
        (if exec u = true then
          (removeUser q u.user,
            acc ++ [(u, decide (0 < u.health) && decide (u.health < cfg.preliq_buffer))])
        else
          (q, acc ++ [(u, decide (0 < u.health) && decide (u.health < cfg.preliq_buffer))]))
      from rfl]
    by_cases he : exec u = true
    · rw [if_pos he, ih]
      simp
    · rw [if_neg he, ih]
      simp

/-- C4: on each scheduler tick exactly the first
`min(max_batch_size, count)` entries of the ascending liquidatable list
are processed, in order, and a processed entry is classified
pre-liquidation exactly when `0 < health < preliq_buffer` and hard
exactly when `health <= 0` (the liquidation threshold does not exceed the
pre-liquidation buffer, per spec section 4.4 the selection is below the
buffer by construction). -/
theorem C4_batch_selection (cfg : Config) (exec : UserHealth → Bool) (queue : List UserHealth)
    (hth : cfg.liquidation_threshold ≤ cfg.preliq_buffer) :
    (processLiquidations cfg exec queue).2 =
      ((getLiquidatable queue cfg.liquidation_threshold).take
        (min cfg.max_liquidations_per_batch
          (getLiquidatable queue cfg.liquidation_threshold).length)).map
        (fun u => (u, decide (0 < u.health) && decide (u.health < cfg.preliq_buffer))) ∧
    ∀ pr ∈ (processLiquidations cfg exec queue).2,
      (pr.2 = true ↔ (0 < pr.1.health ∧ pr.1.health < cfg.preliq_buffer)) ∧
      (pr.2 = false ↔ pr.1.health ≤ 0) := by
  have hmain : (processLiquidations cfg exec queue).2 =
      ((getLiquidatable queue cfg.liquidation_threshold).take
        (min cfg.max_liquidations_per_batch
          (getLiquidatable queue cfg.liquidation_threshold).length)).map
        (fun u => (u, decide (0 < u.health) && decide (u.health < cfg.preliq_buffer))) := by
    unfold processLiquidations
    by_cases hemp : (getLiquidatable queue cfg.liquidation_threshold).isEmpty = true
    · rw [if_pos hemp]
      rw [List.isEmpty_iff.mp hemp]
      simp
    · rw [if_neg hemp]
      dsimp only
      rw [processEntry_foldl_snd]
      simp
  refine ⟨hmain, ?_⟩
  intro pr hpr
  rw [hmain] at hpr
  obtain ⟨u, hu, rfl⟩ := List.mem_map.mp hpr
  dsimp only
  have humem : u ∈ getLiquidatable queue cfg.liquidation_threshold := List.mem_of_mem_take hu
  have hlt : u.health < cfg.liquidation_threshold := by
    unfold getLiquidatable at humem
    have hmemf := (List.perm_insertionSort (fun a b => a.health ≤ b.health)
      (queue.filter (fun r => r.health < cfg.liquidation_threshold))).mem_iff.mp humem
    have := (List.mem_filter.mp hmemf).2
    simpa using this
  constructor
  · simp
  · rw [show ((decide (0 < u.health) && decide (u.health < cfg.preliq_buffer)) = false) ↔
      ¬(0 < u.health ∧ u.health < cfg.preliq_buffer) from by simp]
    omega

/-- C4 witness: a single under-water user (health −5) with threshold 0 and
buffer 10 is selected and classified as a hard liquidation. -/
theorem C4_witness :
    (processLiquidations ⟨0, 16, 10⟩ (fun _ => true) [⟨1, 2, -5, 9, 14, 0⟩]).2 =
      [(⟨1, 2, -5, 9, 14, 0⟩, false)] ∧
    ((⟨1, 2, -5, 9, 14, 0⟩, false) : UserHealth × Bool).2 = false := by
  have h := C4_batch_selection ⟨0, 16, 10⟩ (fun _ => true) [⟨1, 2, -5, 9, 14, 0⟩] (by decide)
  exact ⟨h.1.trans rfl, rfl⟩

/-- The record of a user 5 units below maintenance margin. -/
def u05 : UserHealth := ⟨1, 2, -5000000, 95000000, 100000000, 0⟩

/-- C5: the scheduler removes a user from the queue as soon as
`execute_liquidation` returns `Ok` — and the v0 stub returns
`Ok("stub_signature")` unconditionally, without building, submitting or
confirming anything (its own comment says production would wait for
confirmation).  Here the lone under-water user is dropped from the queue
although no liquidation was accepted by any ledger, contradicting the
claim that removal happens only on confirmed acceptance. -/
theorem C5_removed_on_unconfirmed_submission :
    processLiquidations ⟨0, 10, 1000000⟩
      (fun u => (execute_liquidation u.portfolio false).isOk) [u05] =
      ([], [(u05, false)]) := rfl
